import Mathlib

/-!
Verification of the lazy-asr frontend submission and progress-reporting logic.

The definitions below are shallow embeddings of the JavaScript source:
  * the form-building and submit handlers of `App.js` (the legacy single-file
    component, `part_000`) and of the refactored app
    (`part_003` + `hooks/useASRProcessing.js`),
  * the format-toggle handler `handleFormatChange`,
  * the VAD threshold handler of `components/AdvancedOptions.js`,
  * the plugin-selection logic of `fetchAvailablePlugins`,
  * the WebSocket progress panel `components/ProgressPanel.js`
    (`handleWebSocketMessage`, `addLog`),
  * constants from `constants/config.js`.

JavaScript conventions are made explicit: truthiness of strings and numbers is
modelled by `jsTruthy` / `jsOrInt`, an absent (`undefined`) value by `Option`,
a rejected promise by `Except.error`, and `Array.prototype.slice(-n)` by
`jsSliceLast`.  Nondeterministic decorations of log entries (wall-clock
timestamp, random id) are omitted; a log entry keeps the level, message and
details that the claims are about.
-/

namespace LazyASR

/-- An uploaded media file; only its identity matters to the submission logic. -/
structure AudioFile where
  name : String
deriving Repr, DecidableEq

/-- A value appended to a multipart `FormData`: a string field or a file. -/
inductive FormVal where
  | s (v : String)
  | file (f : AudioFile)
deriving Repr, DecidableEq

/-- A multipart form is an ordered list of (key, value) entries. -/
abbrev FormData := List (String × FormVal)

/-- First value stored under key `k` (what the server reads for a scalar field). -/
def getField (fd : FormData) (k : String) : Option FormVal :=
  (fd.find? (fun p => p.1 == k)).map (fun p => p.2)

/-- Whether any entry with key `k` is present in the form. -/
def hasField (fd : FormData) (k : String) : Bool :=
  fd.any (fun p => p.1 == k)

/-- `constants/config.js` / `services/api.js`: API_BASE_URL. -/
def API_BASE_URL : String := "http://localhost:8000/api/v1"

/-- `constants/config.js`: OUTPUT_FORMATS. -/
def OUTPUT_FORMATS : List String := ["srt", "vtt", "lrc", "txt"]

/-- `constants/config.js`: DEFAULT_OUTPUT_FORMATS. -/
def DEFAULT_OUTPUT_FORMATS : List String := ["srt"]

/-- `constants/config.js`: DEFAULT_MIN_SPEECH_DURATION. -/
def DEFAULT_MIN_SPEECH_DURATION : Int := 500

/-- `constants/config.js`: DEFAULT_MIN_SILENCE_DURATION. -/
def DEFAULT_MIN_SILENCE_DURATION : Int := 500

/-- `constants/config.js`: MAX_FILES (declared but unused by the refactored
batch handler, see the C1 theorem). -/
def MAX_FILES : Nat := 10

/-- JS string truthiness: every string except `""` is truthy. -/
def jsTruthy (s : String) : Bool := s != ""

/-- JS `n || d` on numbers: `0` is falsy. -/
def jsOrInt (n d : Int) : Int := if n = 0 then d else n

/-- JS `s || d` on strings: `""` is falsy. -/
def jsOrStr (s d : String) : String := if jsTruthy s then s else d

/-- The component state fields that feed form building, in both the legacy and
the refactored app (the refactored one adds `asrLanguage` and the
`isMultiple` flag passed to `buildFormData`). -/
structure SubmitConfig where
  audioFiles : List AudioFile
  asrMethod : String
  outputFormats : List String
  showAdvancedOptions : Bool
  minSpeechDuration : Int
  minSilenceDuration : Int
  asrApiUrl : String
  asrApiKey : String
  asrModel : String
  asrLanguage : String
  isMultiple : Bool
deriving Repr, DecidableEq

/-- `hooks/useASRProcessing.js` `buildFormData`: file entry (or entries),
`asr_method`, the comma-joined `output_formats`, and — only when the advanced
panel is open — the VAD thresholds (with `|| default` fallback), the truthy
ASR configuration fields, and `language` (with `|| 'auto'` fallback). -/
def buildFormData (c : SubmitConfig) : FormData :=
  (if c.isMultiple then
    c.audioFiles.map (fun f => ("audio_files", FormVal.file f))
  else
    [("media_file", FormVal.file (c.audioFiles.headD { name := "" }))]) ++
  [("asr_method", FormVal.s c.asrMethod),
   ("output_formats", FormVal.s (String.intercalate "," c.outputFormats))] ++
  (if c.showAdvancedOptions then
    [("min_speech_duration",
        FormVal.s (toString (jsOrInt c.minSpeechDuration DEFAULT_MIN_SPEECH_DURATION))),
     ("min_silence_duration",
        FormVal.s (toString (jsOrInt c.minSilenceDuration DEFAULT_MIN_SILENCE_DURATION)))] ++
    (if jsTruthy c.asrApiUrl then [("asr_api_url", FormVal.s c.asrApiUrl)] else []) ++
    (if jsTruthy c.asrApiKey then [("asr_api_key", FormVal.s c.asrApiKey)] else []) ++
    (if jsTruthy c.asrModel then [("asr_model", FormVal.s c.asrModel)] else []) ++
    [("language", FormVal.s (jsOrStr c.asrLanguage "auto"))]
  else [])

/-- `part_000` advanced block: thresholds are appended verbatim (no fallback)
and there is no `language` entry in the legacy component. -/
def legacyAdvancedFields (c : SubmitConfig) : FormData :=
  if c.showAdvancedOptions then
    [("min_speech_duration", FormVal.s (toString c.minSpeechDuration)),
     ("min_silence_duration", FormVal.s (toString c.minSilenceDuration))] ++
    (if jsTruthy c.asrApiUrl then [("asr_api_url", FormVal.s c.asrApiUrl)] else []) ++
    (if jsTruthy c.asrApiKey then [("asr_api_key", FormVal.s c.asrApiKey)] else []) ++
    (if jsTruthy c.asrModel then [("asr_model", FormVal.s c.asrModel)] else [])
  else []

/-- `part_000` `handleSingleSubmit` form: `audio_file`, `asr_method`,
joined `output_formats`, then the legacy advanced block. -/
def legacySingleFormData (c : SubmitConfig) : FormData :=
  [("audio_file", FormVal.file (c.audioFiles.headD { name := "" })),
   ("asr_method", FormVal.s c.asrMethod),
   ("output_formats", FormVal.s (String.intercalate "," c.outputFormats))] ++
  legacyAdvancedFields c

/-- `part_000` `handleMultipleSubmit` form: one `audio_files` entry per file,
`asr_method`, joined `output_formats`, then the legacy advanced block. -/
def legacyMultipleFormData (c : SubmitConfig) : FormData :=
  c.audioFiles.map (fun f => ("audio_files", FormVal.file f)) ++
  [("asr_method", FormVal.s c.asrMethod),
   ("output_formats", FormVal.s (String.intercalate "," c.outputFormats))] ++
  legacyAdvancedFields c

/-- Observable outcome of a submit handler: return without issuing a request
(`halt`, carrying the error message it displays, if any), or issue one
processing request. -/
inductive BatchAction where
  | halt (errorMsg : Option String)
  | request (endpoint : String) (fd : FormData)
deriving Repr, DecidableEq

/-- `part_000` `handleMultipleSubmit`: rejects an empty selection, rejects more
than 10 files with a max-files error, otherwise posts to
`/asr/process-multiple`. -/
def legacyHandleMultipleSubmit (c : SubmitConfig) : BatchAction :=
  if c.audioFiles.length = 0 then
    BatchAction.halt (some "请选择音频文件")
  else if c.audioFiles.length > 10 then
    BatchAction.halt (some "一次最多处理10个文件")
  else
    BatchAction.request (API_BASE_URL ++ "/asr/process-multiple") (legacyMultipleFormData c)

/-- `part_003` `handleMultipleSubmit`: silently returns on an empty selection,
otherwise posts `buildFormData` (with `isMultiple: true`) to
`/asr/process-multiple`.  It has no file-count cap. -/
def handleMultipleSubmit (c : SubmitConfig) : BatchAction :=
  if c.audioFiles.length = 0 then
    BatchAction.halt none
  else
    BatchAction.request (API_BASE_URL ++ "/asr/process-multiple") (buildFormData { c with isMultiple := true })

/-- `handleFormatChange` (identical in `part_000`, `part_003` and `App.js`):
toggle `format` — remove it when present, append it when absent. -/
def handleFormatChange (format : String) (prev : List String) : List String :=
  if format ∈ prev then
    prev.filter (fun f => f != format)
  else
    prev ++ [format]

/-- A sequence of checkbox toggles applied to a starting format list. -/
def applyFormatToggles (start : List String) (toggles : List String) : List String :=
  toggles.foldl (fun acc f => handleFormatChange f acc) start

/-- The two VAD threshold fields of the advanced panel. -/
inductive VadField where
  | minSpeechDuration
  | minSilenceDuration
deriving Repr, DecidableEq

/-- Default for each VAD field (`constants/config.js`). -/
def vadDefault : VadField → Int
  | VadField.minSpeechDuration => DEFAULT_MIN_SPEECH_DURATION
  | VadField.minSilenceDuration => DEFAULT_MIN_SILENCE_DURATION

/-- `components/AdvancedOptions.js` `handleVadChange`: the new stored value is
`parseInt(value) || default`; `parsed` is the `parseInt` result (`none` for
NaN).  `0` and NaN fall back to the default; every other integer — in range
or not — is stored unchanged. -/
def handleVadChange (field : VadField) (parsed : Option Int) : Int :=
  match parsed with
  | some n => if n = 0 then vadDefault field else n
  | none => vadDefault field

/-- JS truthiness of a possibly-undefined string. -/
def jsTruthyOpt (o : Option String) : Bool :=
  match o with
  | some s => jsTruthy s
  | none => false

/-- The method-selection logic of `fetchAvailablePlugins` (`part_003` and the
refactored `App.js`): adopt the backend default when it is truthy and listed;
otherwise fall back to the first plugin when the list is non-empty and no
method is selected yet; otherwise keep the current selection. -/
def fetchAvailablePlugins (plugins : List String) (defaultMethod : Option String)
    (asrMethod : String) : String :=
  if jsTruthyOpt defaultMethod && plugins.contains (defaultMethod.getD "") then
    defaultMethod.getD ""
  else if decide (0 < plugins.length) && (asrMethod == "") then
    plugins.headD asrMethod
  else
    asrMethod

/-- State owned by `hooks/useASRProcessing.js`. -/
structure ProcState where
  isProcessing : Bool
  error : Option String
  result : Option String
  multiFileResult : Option String
deriving Repr, DecidableEq

/-- `resetResults`: clear the error and both results. -/
def resetResults (s : ProcState) : ProcState :=
  { s with error := none, result := none, multiFileResult := none }

/-- `hooks/useASRProcessing.js` `handleSingleSubmit`: set the processing flag,
reset results, then either store the response or store the failure message;
the flag is cleared in the `finally` block on both paths. -/
def handleSingleSubmit (s : ProcState) (outcome : Except String String) : ProcState :=
  let started := resetResults { s with isProcessing := true }
  match outcome with
  | Except.ok resp => { started with result := some resp, isProcessing := false }
  | Except.error msg => { started with error := some msg, isProcessing := false }

/-- One entry of the progress panel's log list (timestamp and random id of the
source are nondeterministic decorations and are omitted). -/
structure LogEntry where
  level : String
  message : String
  details : Option String
deriving Repr, DecidableEq

/-- JS `xs.slice(-n)` for positive `n`: the last `min n xs.length` elements. -/
def jsSliceLast (n : Nat) (xs : List α) : List α := xs.drop (xs.length - n)

/-- `components/ProgressPanel.js` `addLog`: append one entry and keep the last
100 entries. -/
def addLog (prevLogs : List LogEntry) (level message : String)
    (details : Option String) : List LogEntry :=
  jsSliceLast 100 (prevLogs ++ [{ level := level, message := message, details := details }])

/-- The panel state touched by `handleWebSocketMessage`. -/
structure PanelState where
  progress : Nat
  currentStep : String
  currentMessage : String
  logs : List LogEntry
  stats : Option String
  connectionError : Option String
deriving Repr, DecidableEq

/-- Initial `useState` values of `ProgressPanel`. -/
def initialPanelState : PanelState :=
  { progress := 0, currentStep := "", currentMessage := "", logs := [],
    stats := none, connectionError := none }

/-- An incoming progress-channel message, discriminated on its `type` field.
`Option` fields model values that a message may omit (`undefined`). -/
inductive WsMessage where
  | connection
  | progressMsg (progress : Option Nat) (step : Option String)
      (message : Option String) (details : Option String)
  | logMsg (level : String) (message : String) (details : Option String)
  | errorMsg (message : String) (details : Option String)
  | completion
  | unknown (ty : String)
deriving Repr, DecidableEq

/-- `components/ProgressPanel.js` `handleWebSocketMessage`.  The `completion`
case also schedules a delayed socket close, which has no effect on the panel
state modelled here. -/
def handleWebSocketMessage (s : PanelState) (data : WsMessage) : PanelState :=
  match data with
  | WsMessage.connection => s
  | WsMessage.progressMsg p step msg details =>
      { s with
        progress := p.getD 0,
        currentStep := step.getD "",
        currentMessage := msg.getD "",
        stats := match details with | some d => some d | none => s.stats,
        logs := addLog s.logs "info" (msg.getD "") details }
  | WsMessage.logMsg level msg details =>
      { s with logs := addLog s.logs level msg details }
  | WsMessage.errorMsg msg details =>
      { s with
        logs := addLog s.logs "error" msg details,
        connectionError := some msg }
  | WsMessage.completion =>
      { s with
        logs := addLog s.logs "success" "Processing completed successfully!" none,
        progress := 100,
        currentStep := "completion",
        currentMessage := "Processing completed successfully!" }
  | WsMessage.unknown _ => s

/-- Run the panel over a whole stream of messages. -/
def runPanel (s : PanelState) (ms : List WsMessage) : PanelState :=
  ms.foldl handleWebSocketMessage s

/-- A sequence of `addLog` calls, one per entry. -/
def addLogSeq (logs : List LogEntry) (es : List LogEntry) : List LogEntry :=
  es.foldl (fun acc e => addLog acc e.level e.message e.details) logs

/-! Auxiliary lemmas about `jsSliceLast`. -/

theorem length_jsSliceLast (n : Nat) (xs : List α) :
    (jsSliceLast n xs).length = min xs.length n := by
  simp [jsSliceLast]
  omega

theorem jsSliceLast_of_le (n : Nat) (xs : List α) (h : xs.length ≤ n) :
    jsSliceLast n xs = xs := by
  simp [jsSliceLast, Nat.sub_eq_zero_of_le h]

theorem jsSliceLast_absorb (n : Nat) (xs ys : List α) :
    jsSliceLast n (jsSliceLast n xs ++ ys) = jsSliceLast n (xs ++ ys) := by
  unfold jsSliceLast
  rw [List.drop_append_eq_append_drop, List.drop_append_eq_append_drop, List.drop_drop]
  congr 1
  · congr 1
    simp only [List.length_append, List.length_drop]
    omega
  · congr 1
    simp only [List.length_append, List.length_drop]
    omega

theorem getLast_jsSliceLast_concat (n : Nat) (hn : 0 < n) (xs : List α) (e : α) :
    (jsSliceLast n (xs ++ [e])).getLast? = some e := by
  unfold jsSliceLast
  rw [List.drop_append_eq_append_drop]
  have h : (xs ++ [e]).length - n - xs.length = 0 := by
    simp only [List.length_append, List.length_cons, List.length_nil]
    omega
  rw [h, List.drop_zero]
  exact List.getLast?_concat _

theorem addLogSeq_eq (es : List LogEntry) (logs : List LogEntry)
    (h : logs.length ≤ 100) :
    addLogSeq logs es = jsSliceLast 100 (logs ++ es) := by
  induction es generalizing logs with
  | nil => simp [addLogSeq, jsSliceLast_of_le 100 logs h]
  | cons e es ih =>
      have hlen : (addLog logs e.level e.message e.details).length ≤ 100 := by
        simp only [addLog, length_jsSliceLast]
        omega
      have step : addLogSeq logs (e :: es)
          = addLogSeq (addLog logs e.level e.message e.details) es := rfl
      rw [step, ih _ hlen]
      show jsSliceLast 100 (jsSliceLast 100 (logs ++ [e]) ++ es) = _
      rw [jsSliceLast_absorb, List.append_assoc]
      rfl

/-! Claim theorems. -/

/-- C3: handling a `completion` event sets the displayed progress percentage to
exactly 100 and the current step to `completion`, whatever progress values the
earlier events of the stream carried. -/
theorem completion_forces_progress_100 (s : PanelState) (ms : List WsMessage) :
    (handleWebSocketMessage (runPanel s ms) WsMessage.completion).progress = 100 ∧
    (handleWebSocketMessage (runPanel s ms) WsMessage.completion).currentStep
      = "completion" := by
  exact ⟨rfl, rfl⟩

/-- C5: when single-file processing rejects, the handler stores the failure
reason as the error state, leaves the single-file result `null`, and resets the
processing flag; the error state is set, so the failure is not swallowed. -/
theorem single_submit_failure_reported (s : ProcState) (msg : String) :
    (handleSingleSubmit s (Except.error msg)).error = some msg ∧
    (handleSingleSubmit s (Except.error msg)).result = none ∧
    (handleSingleSubmit s (Except.error msg)).isProcessing = false := by
  exact ⟨rfl, rfl, rfl⟩

/-- C7: a `log` message appends exactly one entry carrying its level, message
and details (it becomes the last entry, and the list grows by one up to the
100 cap), and the displayed progress, step and message are unchanged. -/
theorem log_event_appends_single_entry (s : PanelState) (level msg : String)
    (details : Option String) :
    (handleWebSocketMessage s (WsMessage.logMsg level msg details)).logs
      = jsSliceLast 100 (s.logs ++ [{ level := level, message := msg, details := details }]) ∧
    (handleWebSocketMessage s (WsMessage.logMsg level msg details)).logs.getLast?
      = some { level := level, message := msg, details := details } ∧
    (handleWebSocketMessage s (WsMessage.logMsg level msg details)).logs.length
      = min (s.logs.length + 1) 100 ∧
    (handleWebSocketMessage s (WsMessage.logMsg level msg details)).progress = s.progress ∧
    (handleWebSocketMessage s (WsMessage.logMsg level msg details)).currentStep
      = s.currentStep ∧
    (handleWebSocketMessage s (WsMessage.logMsg level msg details)).currentMessage
      = s.currentMessage := by
  refine ⟨rfl, ?_, ?_, rfl, rfl, rfl⟩
  · exact getLast_jsSliceLast_concat 100 (by omega) s.logs _
  · show (addLog s.logs level msg details).length = _
    simp only [addLog, length_jsSliceLast, List.length_append, List.length_cons,
      List.length_nil]

/-- C8: after any sequence of log additions starting from the empty initial
log list, the panel holds at most 100 entries, and exactly the most recently
added ones in insertion order (a suffix of the addition sequence). -/
theorem log_history_bounded_suffix (es : List LogEntry) :
    (addLogSeq initialPanelState.logs es).length ≤ 100 ∧
    addLogSeq initialPanelState.logs es = jsSliceLast 100 es ∧
    List.IsSuffix (addLogSeq initialPanelState.logs es) es := by
  have h : addLogSeq initialPanelState.logs es = jsSliceLast 100 es := by
    have := addLogSeq_eq es initialPanelState.logs (by simp [initialPanelState])
    simpa [initialPanelState] using this
  refine ⟨?_, h, ?_⟩
  · rw [h, length_jsSliceLast]
    omega
  · rw [h]
    exact List.drop_suffix _ _

/-- C9: toggling `format` on a duplicate-free list flips its membership, and a
double toggle of an absent format restores the original list. -/
theorem format_toggle_involution (prev : List String) (format : String)
    (_hnd : prev.Nodup) :
    (format ∈ handleFormatChange format prev ↔ format ∉ prev) ∧
    (format ∉ prev →
      handleFormatChange format (handleFormatChange format prev) = prev) := by
  by_cases h : format ∈ prev
  · refine ⟨?_, fun hc => absurd h hc⟩
    simp [handleFormatChange, h, List.mem_filter]
  · refine ⟨?_, fun _ => ?_⟩
    · simp [handleFormatChange, h]
    · have h1 : handleFormatChange format prev = prev ++ [format] := by
        simp [handleFormatChange, h]
      have h2 : format ∈ prev ++ [format] := by simp
      rw [h1]
      simp only [handleFormatChange, h2, if_true, List.filter_append]
      have h3 : prev.filter (fun f => f != format) = prev :=
        List.filter_eq_self.mpr (fun a ha => by
          simp only [bne_iff_ne, ne_eq, decide_eq_true_eq]
          exact fun he => h (he ▸ ha))
      simp [h3]

/-- C9 witness: toggling `vtt` on the default list `[srt]`. -/
theorem format_toggle_involution_witness :
    ("vtt" ∈ handleFormatChange "vtt" ["srt"] ↔ "vtt" ∉ (["srt"] : List String)) ∧
    handleFormatChange "vtt" (handleFormatChange "vtt" ["srt"]) = ["srt"] := by
  have h := format_toggle_involution ["srt"] "vtt" (by decide)
  exact ⟨h.1, h.2 (by decide)⟩

/-- C4: after the plugin list is fetched, the selected method equals the
backend default whenever that default is a (non-empty) member of the returned
list; otherwise, when the list is non-empty and nothing was selected, it
equals the first listed plugin. -/
theorem default_method_selection (plugins : List String)
    (defaultMethod : Option String) (asrMethod : String) :
    (∀ d, defaultMethod = some d → d ≠ "" → d ∈ plugins →
      fetchAvailablePlugins plugins defaultMethod asrMethod = d) ∧
    ((∀ d, defaultMethod = some d → d = "" ∨ d ∉ plugins) → plugins ≠ [] →
      asrMethod = "" →
      fetchAvailablePlugins plugins defaultMethod asrMethod = plugins.headD "") := by
  constructor
  · intro d hd hne hmem
    subst hd
    simp [fetchAvailablePlugins, jsTruthyOpt, jsTruthy, hne, hmem]
  · intro hnot hpl hcur
    subst hcur
    have hlen : 0 < plugins.length := List.length_pos.mpr hpl
    cases hdm : defaultMethod with
    | none => simp [fetchAvailablePlugins, jsTruthyOpt, hlen]
    | some d =>
        rcases hnot d hdm with h | h
        · subst h
          simp [fetchAvailablePlugins, jsTruthyOpt, jsTruthy, hlen]
        · simp [fetchAvailablePlugins, jsTruthyOpt, jsTruthy, h, hlen]

/-- C4 witness: the configured default is adopted when listed, and the first
plugin is selected when the default is not listed and nothing is selected. -/
theorem default_method_selection_witness :
    fetchAvailablePlugins ["faster-whisper", "qwen-asr"] (some "qwen-asr") ""
      = "qwen-asr" ∧
    fetchAvailablePlugins ["faster-whisper", "qwen-asr"] (some "missing") ""
      = "faster-whisper" := by
  constructor
  · exact (default_method_selection ["faster-whisper", "qwen-asr"]
      (some "qwen-asr") "").1 "qwen-asr" rfl (by decide) (by decide)
  · exact (default_method_selection ["faster-whisper", "qwen-asr"]
      (some "missing") "").2
      (fun d hd => by
        injection hd with h
        subst h
        exact Or.inr (by decide))
      (by decide) rfl

/-! Auxiliary lemmas about form lookups and format toggling. -/

theorem find_fileEntries_none (files : List AudioFile) (key k : String)
    (hk : (key == k) = false) :
    (files.map (fun f => (key, FormVal.file f))).find? (fun p => p.1 == k) = none := by
  induction files with
  | nil => rfl
  | cons f fs ih => simp [List.find?_cons, hk, ih]

theorem any_fileEntries_false (files : List AudioFile) (key k : String)
    (hk : (key == k) = false) :
    (files.map (fun f => (key, FormVal.file f))).any (fun p => p.1 == k) = false := by
  induction files with
  | nil => rfl
  | cons f fs ih => simp [hk, ih]

theorem any_if_singleton (b : Bool) (x : String × FormVal)
    (p : String × FormVal → Bool) :
    (if b then [x] else []).any p = (b && p x) := by
  cases b <;> simp

theorem nodup_handleFormatChange (format : String) (prev : List String)
    (h : prev.Nodup) : (handleFormatChange format prev).Nodup := by
  unfold handleFormatChange
  split
  · exact h.filter _
  · rename_i hm
    simp [List.nodup_append, h, hm]

theorem subset_handleFormatChange (format : String) (prev S : List String)
    (hf : format ∈ S) (h : ∀ x ∈ prev, x ∈ S) :
    ∀ x ∈ handleFormatChange format prev, x ∈ S := by
  intro x hx
  unfold handleFormatChange at hx
  split at hx
  · exact h x (List.mem_of_mem_filter hx)
  · rcases List.mem_append.mp hx with h1 | h1
    · exact h x h1
    · simp only [List.mem_singleton] at h1
      exact h1 ▸ hf

theorem applyFormatToggles_invariant (toggles : List String) (start : List String)
    (ht : ∀ f ∈ toggles, f ∈ OUTPUT_FORMATS)
    (h1 : start.Nodup) (h2 : ∀ x ∈ start, x ∈ OUTPUT_FORMATS) :
    (applyFormatToggles start toggles).Nodup ∧
    ∀ x ∈ applyFormatToggles start toggles, x ∈ OUTPUT_FORMATS := by
  induction toggles generalizing start with
  | nil => exact ⟨h1, h2⟩
  | cons f fs ih =>
      have hf : f ∈ OUTPUT_FORMATS := ht f (by simp)
      have hts : ∀ g ∈ fs, g ∈ OUTPUT_FORMATS := fun g hg => ht g (by simp [hg])
      exact ih (handleFormatChange f start) hts
        (nodup_handleFormatChange f start h1)
        (subset_handleFormatChange f start OUTPUT_FORMATS hf h2)

/-- C6: every submission's `output_formats` field is the comma-separated join
of the selected formats (in both the refactored and the legacy form builder),
and a format list reached from the default `[srt]` by any sequence of toggles
over the four offered formats is duplicate-free and a subset of
`{srt, vtt, lrc, txt}`. -/
theorem output_formats_join_and_invariant (c : SubmitConfig) (toggles : List String)
    (ht : ∀ f ∈ toggles, f ∈ OUTPUT_FORMATS)
    (hc : c.outputFormats = applyFormatToggles DEFAULT_OUTPUT_FORMATS toggles) :
    getField (buildFormData c) "output_formats"
      = some (FormVal.s (String.intercalate "," c.outputFormats)) ∧
    getField (legacySingleFormData c) "output_formats"
      = some (FormVal.s (String.intercalate "," c.outputFormats)) ∧
    c.outputFormats.Nodup ∧
    (∀ x ∈ c.outputFormats, x ∈ OUTPUT_FORMATS) := by
  have hinv := applyFormatToggles_invariant toggles DEFAULT_OUTPUT_FORMATS ht
    (by decide) (by decide)
  have hfile := find_fileEntries_none c.audioFiles "audio_files" "output_formats"
    (by decide)
  refine ⟨?_, ?_, hc ▸ hinv.1, hc ▸ hinv.2⟩
  · cases hm : c.isMultiple <;>
      simp [getField, buildFormData, hm, hfile, List.find?_cons]
  · simp [getField, legacySingleFormData, List.find?_cons]

/-- C6 witness: a concrete submission after toggling `vtt` from the default. -/
def formatsDemoFiles : List AudioFile := [{ name := "a.wav" }]

def formatsDemoConfig : SubmitConfig :=
  { audioFiles := formatsDemoFiles, asrMethod := "faster-whisper",
    outputFormats := applyFormatToggles DEFAULT_OUTPUT_FORMATS ["vtt"],
    showAdvancedOptions := false, minSpeechDuration := 500,
    minSilenceDuration := 500, asrApiUrl := "", asrApiKey := "", asrModel := "",
    asrLanguage := "auto", isMultiple := false }

theorem output_formats_join_and_invariant_witness :
    getField (buildFormData formatsDemoConfig) "output_formats"
      = some (FormVal.s (String.intercalate "," formatsDemoConfig.outputFormats)) ∧
    getField (legacySingleFormData formatsDemoConfig) "output_formats"
      = some (FormVal.s (String.intercalate "," formatsDemoConfig.outputFormats)) ∧
    formatsDemoConfig.outputFormats.Nodup ∧
    (∀ x ∈ formatsDemoConfig.outputFormats, x ∈ OUTPUT_FORMATS) :=
  output_formats_join_and_invariant formatsDemoConfig ["vtt"] (by decide) rfl

/-! Concrete submissions used to evaluate the batch and threshold handlers. -/

def mkFiles (n : Nat) : List AudioFile :=
  (List.range n).map (fun i => { name := toString i ++ ".wav" })

def demoConfig (files : List AudioFile) : SubmitConfig :=
  { audioFiles := files, asrMethod := "faster-whisper", outputFormats := ["srt"],
    showAdvancedOptions := false, minSpeechDuration := 500,
    minSilenceDuration := 500, asrApiUrl := "", asrApiKey := "", asrModel := "",
    asrLanguage := "auto", isMultiple := false }

/-- C1 (code bug): the legacy batch handler rejects an 11-file batch up front
with the max-files error and lets a 10-file batch through, but the refactored
batch handler issues the processing request for the same 11-file batch — the
`MAX_FILES` cap of `constants/config.js` is not enforced there. -/
theorem batch_cap_dropped_in_refactored_handler :
    legacyHandleMultipleSubmit (demoConfig (mkFiles 11))
      = BatchAction.halt (some "一次最多处理10个文件") ∧
    legacyHandleMultipleSubmit (demoConfig (mkFiles 10))
      = BatchAction.request (API_BASE_URL ++ "/asr/process-multiple")
          (legacyMultipleFormData (demoConfig (mkFiles 10))) ∧
    handleMultipleSubmit (demoConfig (mkFiles 11))
      = BatchAction.request (API_BASE_URL ++ "/asr/process-multiple")
          (buildFormData { demoConfig (mkFiles 11) with isMultiple := true }) := by
  refine ⟨?_, ?_, ?_⟩ <;> rfl

def vadConfig50 : SubmitConfig :=
  { demoConfig (mkFiles 1) with
    showAdvancedOptions := true,
    minSpeechDuration := handleVadChange VadField.minSpeechDuration (some 50) }

/-- C2 counterexample: the entered minimum speech duration 50 is below the
100–5000 range, yet `handleVadChange` stores it unchanged and the built
submission carries `min_speech_duration = 50`: the value is neither clamped
into range nor rejected with a configuration error. -/
theorem vad_out_of_range_reaches_submission :
    handleVadChange VadField.minSpeechDuration (some 50) = 50 ∧
    (50 : Int) < 100 ∧
    getField (buildFormData vadConfig50) "min_speech_duration"
      = some (FormVal.s "50") := by
  exact ⟨rfl, by decide, by decide⟩

/-- C2 amended: for both thresholds, only an empty, non-numeric or zero input
is replaced by the default 500; any other entered value — in range or not —
is stored unchanged by `handleVadChange` and submitted verbatim as
`min_speech_duration` / `min_silence_duration` whenever the advanced panel is
open. -/
theorem vad_entered_value_submitted_verbatim (n m : Int) (hn : n ≠ 0) (hm : m ≠ 0)
    (c : SubmitConfig) (hadv : c.showAdvancedOptions = true)
    (hms : c.minSpeechDuration
      = handleVadChange VadField.minSpeechDuration (some n))
    (hmsil : c.minSilenceDuration
      = handleVadChange VadField.minSilenceDuration (some m)) :
    getField (buildFormData c) "min_speech_duration"
      = some (FormVal.s (toString n)) ∧
    getField (buildFormData c) "min_silence_duration"
      = some (FormVal.s (toString m)) := by
  have hval1 : jsOrInt c.minSpeechDuration DEFAULT_MIN_SPEECH_DURATION = n := by
    rw [hms]
    simp [handleVadChange, vadDefault, jsOrInt, hn]
  have hval2 : jsOrInt c.minSilenceDuration DEFAULT_MIN_SILENCE_DURATION = m := by
    rw [hmsil]
    simp [handleVadChange, vadDefault, jsOrInt, hm]
  have hfile1 := find_fileEntries_none c.audioFiles "audio_files"
    "min_speech_duration" (by decide)
  have hfile2 := find_fileEntries_none c.audioFiles "audio_files"
    "min_silence_duration" (by decide)
  constructor <;>
    cases hmu : c.isMultiple <;>
      simp [getField, buildFormData, hadv, hmu, hfile1, hfile2, hval1, hval2,
        List.find?_cons]

/-- A submission state with the advanced panel open and both thresholds set
out of range, 50 below and 6000 above the 100–5000 band. -/
def vadConfigOutOfRange : SubmitConfig :=
  { demoConfig (mkFiles 1) with
    showAdvancedOptions := true,
    minSpeechDuration := handleVadChange VadField.minSpeechDuration (some 50),
    minSilenceDuration := handleVadChange VadField.minSilenceDuration (some 6000) }

/-- C2 amended, witness: the out-of-range values 50 and 6000 are submitted
verbatim as the two threshold fields. -/
theorem vad_entered_value_submitted_verbatim_witness :
    getField (buildFormData vadConfigOutOfRange) "min_speech_duration"
      = some (FormVal.s (toString (50 : Int))) ∧
    getField (buildFormData vadConfigOutOfRange) "min_silence_duration"
      = some (FormVal.s (toString (6000 : Int))) :=
  vad_entered_value_submitted_verbatim 50 6000 (by decide) (by decide)
    vadConfigOutOfRange rfl rfl rfl

def advancedOpenConfig : SubmitConfig :=
  { demoConfig (mkFiles 1) with showAdvancedOptions := true }

/-- C10 counterexample: with the advanced panel open but the endpoint field
empty (its initial value), the submission contains no `asr_api_url` entry, so
the panel being open does not imply that the endpoint field is included. -/
theorem advanced_open_api_url_omitted :
    advancedOpenConfig.showAdvancedOptions = true ∧
    hasField (buildFormData advancedOpenConfig) "asr_api_url" = false := by
  exact ⟨rfl, by decide⟩

/-- C10 amended: the VAD thresholds and the language field are included in the
built form exactly when the advanced panel is open; the endpoint, credential
and model fields are included exactly when the panel is open and the
corresponding value is non-empty; with the panel closed, all of them are
omitted regardless of previously entered values. -/
theorem advanced_fields_presence (c : SubmitConfig) :
    hasField (buildFormData c) "min_speech_duration" = c.showAdvancedOptions ∧
    hasField (buildFormData c) "min_silence_duration" = c.showAdvancedOptions ∧
    hasField (buildFormData c) "language" = c.showAdvancedOptions ∧
    hasField (buildFormData c) "asr_api_url"
      = (c.showAdvancedOptions && jsTruthy c.asrApiUrl) ∧
    hasField (buildFormData c) "asr_api_key"
      = (c.showAdvancedOptions && jsTruthy c.asrApiKey) ∧
    hasField (buildFormData c) "asr_model"
      = (c.showAdvancedOptions && jsTruthy c.asrModel) := by
  have h1 := any_fileEntries_false c.audioFiles "audio_files"
  refine ⟨?_, ?_, ?_, ?_, ?_, ?_⟩
  · cases hadv : c.showAdvancedOptions <;> cases hm : c.isMultiple <;>
      simp [hasField, buildFormData, hadv, hm, any_if_singleton,
        h1 "min_speech_duration" (by decide), List.any_append]
  · cases hadv : c.showAdvancedOptions <;> cases hm : c.isMultiple <;>
      simp [hasField, buildFormData, hadv, hm, any_if_singleton,
        h1 "min_silence_duration" (by decide), List.any_append]
  · cases hadv : c.showAdvancedOptions <;> cases hm : c.isMultiple <;>
      simp [hasField, buildFormData, hadv, hm, any_if_singleton,
        h1 "language" (by decide), List.any_append]
  · cases hadv : c.showAdvancedOptions <;> cases hm : c.isMultiple <;>
      simp [hasField, buildFormData, hadv, hm, any_if_singleton,
        h1 "asr_api_url" (by decide), List.any_append]
  · cases hadv : c.showAdvancedOptions <;> cases hm : c.isMultiple <;>
      simp [hasField, buildFormData, hadv, hm, any_if_singleton,
        h1 "asr_api_key" (by decide), List.any_append]
  · cases hadv : c.showAdvancedOptions <;> cases hm : c.isMultiple <;>
      simp [hasField, buildFormData, hadv, hm, any_if_singleton,
        h1 "asr_model" (by decide), List.any_append]

end LazyASR
